import Mathlib

/-!
Verification of the Credence backend rate-limiting core
(`src/middleware/rateLimit.ts` and the Redis-backed store
`rateLimitRedis.ts`), shallowly embedded in Lean 4.

JavaScript numbers that hold request counts, timestamps (ms since epoch)
and window lengths are modelled as `Nat`: all arithmetic performed on them
in the source is addition, truncated-at-zero subtraction
(`Math.max(0, a - b)`), comparison and ceiling division, which are exact
on integers far below 2^53. The Redis `TTL` reply can be the sentinel
`-1`/`-2`, so it is modelled as `Int`.
-/

namespace Credence

/-- `RateLimitResult` from rateLimit.ts: post-increment count and the
remaining window time in milliseconds. -/
structure RateLimitResult where
  count : Nat
  ttlMs : Nat
  deriving Repr, DecidableEq

/-- A `MemoryStore` entry: `{ count, resetAt }` (resetAt is an absolute
timestamp in ms). -/
structure MemEntry where
  count : Nat
  resetAt : Nat
  deriving Repr, DecidableEq

/-- The `MemoryStore`'s private `entries` map, modelled as a function from
keys to optional entries. -/
def MemoryStore : Type := String → Option MemEntry

/-- The empty memory store (a fresh `new Map()`). -/
def MemoryStore.empty : MemoryStore := fun _ => none

/-- Map update for the entries map (`this.entries.set(key, entry)`). -/
def MemoryStore.set (s : MemoryStore) (key : String) (e : MemEntry) : MemoryStore :=
  fun k => if k = key then some e else s k

/-- `MemoryStore.increment(key, windowMs)` from rateLimit.ts, with the
ambient `Date.now()` passed explicitly as `now`.  If no entry exists or
`entry.resetAt <= now`, a fresh entry `{count: 1, resetAt: now + windowMs}`
is written and `{count: 1, ttlMs: windowMs}` returned; otherwise the count
is bumped and `ttlMs = Math.max(0, entry.resetAt - now)` (which on `Nat`
is exactly truncated subtraction). -/
def MemoryStore.increment (s : MemoryStore) (key : String) (windowMs now : Nat) :
    RateLimitResult × MemoryStore :=
  match s key with
  | none =>
      (⟨1, windowMs⟩, s.set key ⟨1, now + windowMs⟩)
  | some entry =>
      if entry.resetAt ≤ now then
        (⟨1, windowMs⟩, s.set key ⟨1, now + windowMs⟩)
      else
        let newCount := entry.count + 1
        (⟨newCount, entry.resetAt - now⟩, s.set key ⟨newCount, entry.resetAt⟩)

/-- Sequential increments of the same key at the given list of times,
collecting each call's result (used to state the monotone-count
property). -/
def MemoryStore.incrementMany (s : MemoryStore) (key : String) (windowMs : Nat) :
    List Nat → List RateLimitResult × MemoryStore
  | [] => ([], s)
  | t :: ts =>
      let (r, s1) := s.increment key windowMs t
      let (rs, s2) := s1.incrementMany key windowMs ts
      (r :: rs, s2)

/-- `Math.ceil(t / 1000)` for a non-negative integer number of
milliseconds `t` (used both for `Retry-After` and for the Redis
`EXPIRE` argument). -/
def ceilSec (t : Nat) : Nat := (t + 999) / 1000

/-! ### Redis-backed store (rateLimitRedis.ts) -/

/-- The relevant slice of Redis state for one process: each key maps to an
integer value together with its expiry in seconds, `none` meaning the key
has no expiry set (Redis `TTL` would answer `-1`). -/
def RedisState : Type := String → Option (Nat × Option Nat)

/-- Redis `INCR key`: auto-initialise an absent key to 0, add one, keep
any existing expiry.  Returns the post-increment value and new state. -/
def redisIncr (s : RedisState) (key : String) : Nat × RedisState :=
  match s key with
  | none => (1, fun k => if k = key then some (1, none) else s k)
  | some (v, t) => (v + 1, fun k => if k = key then some (v + 1, t) else s k)

/-- Redis `EXPIRE key sec`: set the expiry of an existing key. -/
def redisExpire (s : RedisState) (key : String) (sec : Nat) : RedisState :=
  fun k =>
    if k = key then
      match s key with
      | none => none
      | some (v, _) => some (v, some sec)
    else s k

/-- Redis `TTL key`: `-2` for a missing key, `-1` for a key with no
expiry, otherwise the remaining seconds. -/
def redisTtl (s : RedisState) (key : String) : Int :=
  match s key with
  | none => -2
  | some (_, none) => -1
  | some (_, some t) => (t : Int)

/-- `RedisStore.increment(key, windowMs)` from rateLimitRedis.ts:
`INCR`, then `EXPIRE key ceil(windowMs/1000)` exactly when the
post-increment value is 1, then read `TTL` back and convert to
milliseconds, treating a non-positive TTL as 0. -/
def RedisStore.increment (s : RedisState) (key : String) (windowMs : Nat) :
    RateLimitResult × RedisState :=
  let (count, s1) := redisIncr s key
  let windowSec := ceilSec windowMs
  let s2 := if count = 1 then redisExpire s1 key windowSec else s1
  let ttlSec := redisTtl s2 key
  let ttlMs := if ttlSec > 0 then ttlSec.toNat * 1000 else 0
  (⟨count, ttlMs⟩, s2)

/-! ### Middleware (rateLimit.ts) -/

/-- The request attributes the middleware consumes: the `x-api-key`
header (when present as a string), `req.ip`, `req.socket.remoteAddress`,
the HTTP method and the path. -/
structure Req where
  apiKey : Option String
  ip : Option String
  remoteAddress : Option String
  method : String
  path : String

/-- `defaultKeyGenerator` from rateLimit.ts: a non-empty `x-api-key`
header gives `key:<value>`, otherwise `ip:<req.ip ?? remoteAddress ??
"unknown">`. -/
def defaultKeyGenerator (req : Req) : String :=
  match req.apiKey with
  | some k =>
      if k.length > 0 then "key:" ++ k
      else "ip:" ++ (req.ip.getD (req.remoteAddress.getD "unknown"))
  | none => "ip:" ++ (req.ip.getD (req.remoteAddress.getD "unknown"))

/-- The scope key built inside the handler:
`` `rl:${key}:${req.method}:${req.path}` ``. -/
def scopeKey (clientKey method path : String) : String :=
  "rl:" ++ clientKey ++ ":" ++ method ++ ":" ++ path

/-- The scope key of a request under the default key generator. -/
def scopeKeyOf (req : Req) : String :=
  scopeKey (defaultKeyGenerator req) req.method req.path

/-- `RateLimitConfig`: per-request window and max. -/
structure RateLimitConfig where
  maxPerWindow : Nat
  windowMs : Nat

/-- The JSON error body the middleware sends on denial. -/
structure DenyBody where
  error : String
  message : String
  retryAfter : Nat
  deriving Repr, DecidableEq

/-- The observable denial response: the HTTP status, the `Retry-After`
header value and the JSON body. -/
structure DenyResponse where
  status : Nat
  retryAfterHeader : Nat
  body : DenyBody
  deriving Repr, DecidableEq

/-- What one invocation of the middleware's async handler observably did:
invoked the continuation (`next()`), produced a 429 denial, or let an
exception escape (the returned promise rejects and `next` is never
called). -/
inductive MwOutcome where
  | allowed
  | denied (resp : DenyResponse)
  | errored
  deriving Repr, DecidableEq

/-- The policy used for a request: `getConfig(req)` when a per-request
resolver is configured, otherwise the static pair from the options. -/
def resolveConfig (getConfig : Option (Req → Except String RateLimitConfig))
    (defaultMax defaultWindowMs : Nat) (req : Req) : Except String RateLimitConfig :=
  match getConfig with
  | some g => g req
  | none => Except.ok ⟨defaultMax, defaultWindowMs⟩

/-- One run of the handler returned by `rateLimit(options)`.

Faithful to the control flow of rateLimit.ts lines 159–184: `getConfig`
(when configured) and `keyGenerator` are invoked *before* the `try`
block, so an exception from either escapes the handler (`.errored`);
only the `store.increment` call and the response rendering sit inside
the `try`, whose `catch` calls `next()` (fail open).  Throwing functions
are modelled as `Except`-valued; the store call likewise, covering a
rejected promise. -/
def rateLimitHandle (defaultMax defaultWindowMs : Nat)
    (getConfig : Option (Req → Except String RateLimitConfig))
    (keyGenerator : Req → Except String String)
    (increment : String → Nat → Except String RateLimitResult)
    (req : Req) : MwOutcome :=
  match resolveConfig getConfig defaultMax defaultWindowMs req with
  | Except.error _ => MwOutcome.errored
  | Except.ok config =>
    match keyGenerator req with
    | Except.error _ => MwOutcome.errored
    | Except.ok key =>
      let sk := scopeKey key req.method req.path
      match increment sk config.windowMs with
      | Except.error _ => MwOutcome.allowed
      | Except.ok r =>
        if r.count > config.maxPerWindow then
          let retryAfterSec := ceilSec r.ttlMs
          MwOutcome.denied
            { status := 429
              retryAfterHeader := retryAfterSec
              body :=
                { error := "Too Many Requests"
                  message := "Rate limit exceeded. Please retry after the Retry-After period."
                  retryAfter := retryAfterSec } }
        else
          MwOutcome.allowed

/-- The default key generator wrapped as a never-throwing resolver (the
shape the handler receives when `keyGenerator` is not overridden). -/
def defaultKeyGen : Req → Except String String :=
  fun req => Except.ok (defaultKeyGenerator req)

/-- The tag half of the default client identity: `"key"` when a
non-empty `x-api-key` header is used, `"ip"` otherwise. -/
def clientTag (r : Req) : String :=
  match r.apiKey with
  | some k => if k.length > 0 then "key" else "ip"
  | none => "ip"

/-- The value half of the default client identity: the API key, or the
resolved remote address fallback. -/
def clientValue (r : Req) : String :=
  match r.apiKey with
  | some k => if k.length > 0 then k else r.ip.getD (r.remoteAddress.getD "unknown")
  | none => r.ip.getD (r.remoteAddress.getD "unknown")

/-- The default client identity is the tag and the value joined by a
colon. -/
theorem dkg_decomp (r : Req) :
    defaultKeyGenerator r = clientTag r ++ ":" ++ clientValue r := by
  unfold defaultKeyGenerator clientTag clientValue
  cases hk : r.apiKey with
  | none => rfl
  | some k =>
      by_cases hl : k.length > 0
      · simp only [hl, if_true]
        rfl
      · simp only [hl, if_false]
        rfl

/-- Neither tag (`"key"` nor `"ip"`) contains a colon. -/
theorem clientTag_colonFree (r : Req) : ':' ∉ (clientTag r).data := by
  unfold clientTag
  cases r.apiKey with
  | none => decide
  | some k =>
      by_cases hl : k.length > 0
      · simp only [hl, if_true]; decide
      · simp only [hl, if_false]; decide

/-- A colon-terminated field followed by arbitrary text determines both
parts, provided the field itself is colon-free. -/
theorem append_colon_inj {a₁ a₂ r₁ r₂ : List Char}
    (h₁ : ':' ∉ a₁) (h₂ : ':' ∉ a₂)
    (h : a₁ ++ ':' :: r₁ = a₂ ++ ':' :: r₂) : a₁ = a₂ ∧ r₁ = r₂ := by
  induction a₁ generalizing a₂ with
  | nil =>
      cases a₂ with
      | nil => simpa using h
      | cons c t =>
          simp only [List.nil_append, List.cons_append, List.cons.injEq] at h
          have hc : (':' : Char) ∈ c :: t := by
            rw [h.1]; exact List.mem_cons_self c t
          exact absurd hc h₂
  | cons c t ih =>
      cases a₂ with
      | nil =>
          simp only [List.cons_append, List.nil_append, List.cons.injEq] at h
          have hc : (':' : Char) ∈ c :: t := by
            rw [← h.1]; exact List.mem_cons_self c t
          exact absurd hc h₁
      | cons c₂ t₂ =>
          simp only [List.cons_append, List.cons.injEq] at h
          have hrec := ih (fun hm => h₁ (List.mem_cons_of_mem c hm))
            (fun hm => h₂ (List.mem_cons_of_mem c₂ hm)) h.2
          exact ⟨by rw [h.1, hrec.1], hrec.2⟩

/-- Reading back the entry just written. -/
theorem MemoryStore.set_self (s : MemoryStore) (key : String) (e : MemEntry) :
    (s.set key e) key = some e := by
  simp [MemoryStore.set]

/-! ### Claims -/

/-- C1: for every `maxPerWindow = M`, when the store's increment succeeds
with result `res`, the handler allows the request exactly when
`res.count ≤ M`; in particular the M-th request (count = M) is allowed
and the (M+1)-th (count = M+1) is denied with a 429 response, so M = 0
denies every request (post-increment counts are at least 1). -/
theorem admission_boundary (M W : Nat) (res : RateLimitResult) (req : Req) :
    (rateLimitHandle M W none defaultKeyGen (fun _ _ => Except.ok res) req
        = MwOutcome.allowed ↔ res.count ≤ M)
    ∧ (M < res.count →
        rateLimitHandle M W none defaultKeyGen (fun _ _ => Except.ok res) req
          = MwOutcome.denied
              ⟨429, ceilSec res.ttlMs,
                ⟨"Too Many Requests",
                 "Rate limit exceeded. Please retry after the Retry-After period.",
                 ceilSec res.ttlMs⟩⟩) := by
  constructor
  · by_cases h : res.count ≤ M
    · simp [rateLimitHandle, resolveConfig, defaultKeyGen, Nat.not_lt.mpr h, h]
    · simp [rateLimitHandle, resolveConfig, defaultKeyGen, Nat.lt_of_not_le h, h]
  · intro h
    simp [rateLimitHandle, resolveConfig, defaultKeyGen, h]

/-- Witness for C1 at M = 3: a successful increment returning count 4
(the (M+1)-th request) is denied with a 429 response. -/
theorem admission_boundary_witness :
    rateLimitHandle 3 1000 none defaultKeyGen (fun _ _ => Except.ok ⟨4, 500⟩)
        ⟨none, some "1.2.3.4", none, "GET", "/a"⟩
      = MwOutcome.denied
          ⟨429, 1,
            ⟨"Too Many Requests",
             "Rate limit exceeded. Please retry after the Retry-After period.", 1⟩⟩ :=
  (admission_boundary 3 1000 ⟨4, 500⟩ ⟨none, some "1.2.3.4", none, "GET", "/a"⟩).2
    (by decide)

/-- C2: whenever the store's increment rejects (for any error and any
result it would have had), a request whose policy and client key resolve
successfully is admitted — `next()` is invoked and no 429 is produced
(fail open). -/
theorem fail_open_store (M W : Nat)
    (getConfig : Option (Req → Except String RateLimitConfig))
    (kg : Req → Except String String)
    (errOf : String → Nat → String) (req : Req)
    (cfg : RateLimitConfig) (k : String)
    (hcfg : resolveConfig getConfig M W req = Except.ok cfg)
    (hkg : kg req = Except.ok k) :
    rateLimitHandle M W getConfig kg
        (fun s w => Except.error (errOf s w)) req = MwOutcome.allowed := by
  simp [rateLimitHandle, hcfg, hkg]

/-- Witness for C2: with the default resolvers and a store whose
increment always rejects, a concrete request is admitted. -/
theorem fail_open_store_witness :
    rateLimitHandle 0 60000 none defaultKeyGen
        (fun _ _ => Except.error "store unreachable")
        ⟨some "abc", none, none, "POST", "/api/attestations"⟩ = MwOutcome.allowed :=
  fail_open_store 0 60000 none defaultKeyGen (fun _ _ => "store unreachable")
    ⟨some "abc", none, none, "POST", "/api/attestations"⟩ ⟨0, 60000⟩
    (defaultKeyGenerator ⟨some "abc", none, none, "POST", "/api/attestations"⟩)
    rfl rfl

/-- C7: on every denial the retry-after value is `ceilSec ttlMs`, which
equals `ttlMs / 1000` plus one extra second exactly when there is a
nonzero remainder (i.e. `ceil(ttlMs / 1000)`); the same integer is the
`Retry-After` header and the body's `retryAfter` field; concretely
1500 ms yields 2, 60000 ms yields 60 and 0 ms yields 0. -/
theorem retry_after_rounding (M W : Nat) (res : RateLimitResult) (req : Req)
    (h : M < res.count) :
    (∃ body : DenyBody,
      rateLimitHandle M W none defaultKeyGen (fun _ _ => Except.ok res) req
        = MwOutcome.denied ⟨429, ceilSec res.ttlMs, body⟩
      ∧ body.retryAfter = ceilSec res.ttlMs)
    ∧ ceilSec res.ttlMs
        = res.ttlMs / 1000 + (if res.ttlMs % 1000 = 0 then 0 else 1)
    ∧ ceilSec 1500 = 2 ∧ ceilSec 60000 = 60 ∧ ceilSec 0 = 0 := by
  refine ⟨⟨_, ((admission_boundary M W res req).2 h), rfl⟩, ?_, by decide, by decide, by decide⟩
  by_cases h0 : res.ttlMs % 1000 = 0 <;> simp only [ceilSec, h0, if_true, if_false] <;> omega

/-- Witness for C7: remaining time 1500 ms at limit 0 yields a denial
with header and body retry-after both 2. -/
theorem retry_after_rounding_witness :
    ∃ body : DenyBody,
      rateLimitHandle 0 60000 none defaultKeyGen (fun _ _ => Except.ok ⟨1, 1500⟩)
          ⟨none, none, none, "GET", "/a"⟩
        = MwOutcome.denied ⟨429, 2, body⟩ ∧ body.retryAfter = 2 :=
  (retry_after_rounding 0 60000 ⟨1, 1500⟩ ⟨none, none, none, "GET", "/a"⟩
    (by decide)).1

/-- C9 (amended): a throwing policy resolver or client-key resolver is
*not* caught by the handler — both are invoked before the `try` block, so
the exception escapes (`.errored`): the continuation is not invoked and
no 429 is produced, but the request is not admitted either; only store
increment failures fail open. -/
theorem resolver_throw_propagates :
    (∀ (M W : Nat) (e : String) (kg : Req → Except String String)
        (inc : String → Nat → Except String RateLimitResult) (req : Req),
      rateLimitHandle M W (some fun _ => Except.error e) kg inc req
        = MwOutcome.errored)
    ∧ (∀ (M W : Nat) (e : String)
        (inc : String → Nat → Except String RateLimitResult) (req : Req),
      rateLimitHandle M W none (fun _ => Except.error e) inc req
        = MwOutcome.errored) := by
  constructor <;> intros <;> simp [rateLimitHandle, resolveConfig]

/-- Counterexample to C9 as stated: with a policy resolver that throws,
a concrete request is *not* admitted (the outcome is an escaped
exception, not `next()`), contradicting the claimed fail-open. -/
theorem resolver_throw_counterexample :
    rateLimitHandle 5 60000 (some fun _ => Except.error "boom") defaultKeyGen
        (fun _ _ => Except.ok ⟨1, 60000⟩) ⟨none, some "1.2.3.4", none, "GET", "/a"⟩
      ≠ MwOutcome.allowed := by
  decide

/-- C10: in the Local store the expiry boundary is inclusive: an
increment at `now` exactly equal to the entry's `resetAt` starts a fresh
window — count 1, remaining time the full window — rather than
continuing the old one. -/
theorem boundary_reset_inclusive (s : MemoryStore) (key : String) (W : Nat)
    (e : MemEntry) (hs : s key = some e) :
    (s.increment key W e.resetAt).1 = ⟨1, W⟩
    ∧ (s.increment key W e.resetAt).2 key = some ⟨1, e.resetAt + W⟩ := by
  simp [MemoryStore.increment, hs, MemoryStore.set_self]

/-- Witness for C10: a key at count 3 whose window expires at t = 500,
incremented exactly at t = 500 with window 1000, resets to count 1. -/
theorem boundary_reset_inclusive_witness :
    ((MemoryStore.empty.set "k" ⟨3, 500⟩).increment "k" 1000 500).1 = ⟨1, 1000⟩
    ∧ ((MemoryStore.empty.set "k" ⟨3, 500⟩).increment "k" 1000 500).2 "k"
        = some ⟨1, 1500⟩ :=
  boundary_reset_inclusive (MemoryStore.empty.set "k" ⟨3, 500⟩) "k" 1000 ⟨3, 500⟩
    (MemoryStore.set_self _ _ _)

/-- C3: in the Local store, an increment strictly more than `W` after the
key's window started (the entry expires at `start + W`) returns count 1
and remaining time `W` — a full reset, not a continuation. -/
theorem window_reset (s : MemoryStore) (key : String) (W start now : Nat)
    (e : MemEntry) (hs : s key = some e) (he : e.resetAt = start + W)
    (hnow : start + W < now) :
    (s.increment key W now).1 = ⟨1, W⟩ := by
  have hle : e.resetAt ≤ now := by omega
  simp [MemoryStore.increment, hs, hle]

/-- Witness for C3: window started at t = 0 with W = 1000; an increment
at t = 1001 resets to count 1 with remaining time 1000. -/
theorem window_reset_witness :
    ((MemoryStore.empty.set "k" ⟨7, 1000⟩).increment "k" 1000 1001).1 = ⟨1, 1000⟩ :=
  window_reset (MemoryStore.empty.set "k" ⟨7, 1000⟩) "k" 1000 0 1001 ⟨7, 1000⟩
    (MemoryStore.set_self _ _ _) rfl (by decide)

/-- Inside an active window (`every time < resetAt`), a run of increments
starting from an entry with count `c` returns counts `c+1, c+2, …` and
leaves the entry at `c + length` with the same `resetAt`. -/
theorem incrementMany_counts (key : String) (W R : Nat) (ts : List Nat) :
    ∀ (s : MemoryStore) (c : Nat), s key = some ⟨c, R⟩ → (∀ t ∈ ts, t < R) →
      (s.incrementMany key W ts).1.map RateLimitResult.count
          = List.range' (c + 1) ts.length
      ∧ (s.incrementMany key W ts).2 key = some ⟨c + ts.length, R⟩ := by
  induction ts with
  | nil =>
      intro s c hs _
      exact ⟨rfl, by simpa using hs⟩
  | cons t ts ih =>
      intro s c hs hts
      have hlt : ¬ R ≤ t := Nat.not_le.mpr (hts t (List.mem_cons_self t ts))
      have hrec := ih (s.set key ⟨c + 1, R⟩) (c + 1) (MemoryStore.set_self _ _ _)
        (fun u hu => hts u (List.mem_cons_of_mem t hu))
      simp only [MemoryStore.incrementMany, MemoryStore.increment, hs, hlt, if_false]
      refine ⟨?_, by simpa [Nat.add_assoc, Nat.add_comm 1 ts.length] using hrec.2⟩
      simpa [List.range'] using hrec.1

/-- C4: starting with no entry for the key, N increments within a single
window (every later time strictly before the first increment's expiry)
return counts 1, 2, …, N — the k-th (1-indexed) increment returns
count = k, and the count only resets once a new window begins. -/
theorem monotonic_count (s : MemoryStore) (key : String) (W t0 : Nat)
    (ts : List Nat) (hs : s key = none) (hts : ∀ t ∈ ts, t < t0 + W) :
    (s.incrementMany key W (t0 :: ts)).1.map RateLimitResult.count
      = List.range' 1 (ts.length + 1) := by
  have hrec := incrementMany_counts key W (t0 + W) ts
    (s.set key ⟨1, t0 + W⟩) 1 (MemoryStore.set_self _ _ _) hts
  simp only [MemoryStore.incrementMany, MemoryStore.increment, hs]
  simpa [List.range'] using hrec.1

/-- Witness for C4: three increments at times 0, 1, 2 inside one window
of 10 ms return counts 1, 2, 3. -/
theorem monotonic_count_witness :
    (MemoryStore.empty.incrementMany "k" 10 [0, 1, 2]).1.map RateLimitResult.count
      = List.range' 1 3 :=
  monotonic_count MemoryStore.empty "k" 10 0 [1, 2] rfl (by decide)

/-- C8: one Redis-store increment (i) returns the prior value plus one,
auto-initialising an absent key to 0; (ii) establishes an expiry of
`ceil(windowMs/1000)` seconds exactly when the post-increment value is 1
and touches the stored expiry at no other time; (iii) returns as
`remainingWindowMs` the read-back TTL converted to milliseconds, with a
non-positive or missing TTL treated as 0. -/
theorem redis_increment_spec (s : RedisState) (key : String) (W : Nat) :
    (RedisStore.increment s key W).1.count
        = (match s key with | none => 0 | some (v, _) => v) + 1
    ∧ ((RedisStore.increment s key W).1.count = 1 →
        (RedisStore.increment s key W).2 key = some (1, some (ceilSec W)))
    ∧ (∀ v t, s key = some (v, t) → (RedisStore.increment s key W).1.count ≠ 1 →
        (RedisStore.increment s key W).2 key = some (v + 1, t))
    ∧ (RedisStore.increment s key W).1.ttlMs
        = (if 0 < redisTtl (RedisStore.increment s key W).2 key then
            (redisTtl (RedisStore.increment s key W).2 key).toNat * 1000
          else 0) := by
  match hsk : s key with
  | none =>
      simp [RedisStore.increment, redisIncr, redisExpire, redisTtl, hsk]
  | some (v, t) =>
      by_cases hv : v = 0
      · subst hv
        simp [RedisStore.increment, redisIncr, redisExpire, redisTtl, hsk]
      · have hne : ¬ v + 1 = 1 := by omega
        simp [RedisStore.increment, redisIncr, redisExpire, redisTtl, hsk, hne]

/-- Witness for C8 on a concrete state: the key "k" holds 2 with 40 s
left; incrementing with a 60000 ms window leaves the expiry untouched. -/
theorem redis_increment_spec_witness :
    ((RedisStore.increment (fun k => if k = "k" then some (2, some 40) else none)
        "k" 60000).2) "k" = some (3, some 40) :=
  (redis_increment_spec (fun k => if k = "k" then some (2, some 40) else none)
      "k" 60000).2.2.1 2 (some 40) (by decide) (by decide)

/-- C6 (amended): on the Local store the remaining time is at most
`windowMs` whenever the key's current entry expires no later than
`now + windowMs` (true when the window was opened with the same
`windowMs` under a monotone clock); on the Distributed store it is at
most `ceil(windowMs/1000) * 1000` whenever the stored expiry does not
exceed `ceil(windowMs/1000)` seconds — a bound that exceeds `windowMs`
itself when `windowMs` is not a whole number of seconds.  Both values
are non-negative by construction. -/
theorem remaining_window_bounds :
    (∀ (s : MemoryStore) (key : String) (W now : Nat),
      (∀ e, s key = some e → e.resetAt ≤ now + W) →
      (s.increment key W now).1.ttlMs ≤ W)
    ∧ (∀ (s : RedisState) (key : String) (W : Nat),
      (∀ v t, s key = some (v, some t) → t ≤ ceilSec W) →
      (RedisStore.increment s key W).1.ttlMs ≤ ceilSec W * 1000) := by
  constructor
  · intro s key W now hinv
    match hsk : s key with
    | none => simp [MemoryStore.increment, hsk]
    | some e =>
        have := hinv e hsk
        by_cases hle : e.resetAt ≤ now
        · simp [MemoryStore.increment, hsk, hle]
        · simp only [MemoryStore.increment, hsk, hle, if_false]
          omega
  · intro s key W hinv
    match hsk : s key with
    | none =>
        simp [RedisStore.increment, redisIncr, redisExpire, redisTtl, hsk]
        split <;> simp
    | some (v, t) =>
        by_cases hv : v = 0
        · subst hv
          simp [RedisStore.increment, redisIncr, redisExpire, redisTtl, hsk]
          split <;> simp
        · have hne : ¬ v + 1 = 1 := by omega
          match t with
          | none =>
              simp [RedisStore.increment, redisIncr, redisTtl, hsk, hne]
          | some ttl =>
              have hb := hinv v ttl hsk
              simp [RedisStore.increment, redisIncr, redisTtl, hsk, hne]
              split
              · next h => exact Nat.mul_le_mul_right 1000 (by omega)
              · exact Nat.zero_le _

/-- Witness for C6 (amended): the Local bound at an empty store, and the
Distributed bound at an empty Redis with a 1500 ms window (the result is
2000 = ceil(1500/1000)·1000). -/
theorem remaining_window_bounds_witness :
    (MemoryStore.empty.increment "k" 1000 5).1.ttlMs ≤ 1000
    ∧ (RedisStore.increment (fun _ => none) "k" 1500).1.ttlMs ≤ ceilSec 1500 * 1000 :=
  ⟨remaining_window_bounds.1 MemoryStore.empty "k" 1000 5 (by intro e h; cases h),
   remaining_window_bounds.2 (fun _ => none) "k" 1500 (by intro v t h; cases h)⟩

/-- Counterexample to C6 as stated: on the Distributed store with
`windowMs = 1500`, the very first increment returns a remaining time of
2000 ms (the TTL is rounded up to 2 s and read back), which is outside
`[0, 1500]`. -/
theorem remaining_window_counterexample :
    (RedisStore.increment (fun _ => none) "k" 1500).1.ttlMs = 2000
    ∧ ¬ (RedisStore.increment (fun _ => none) "k" 1500).1.ttlMs ≤ 1500 := by
  constructor <;> decide

/-- C5 (amended): under the default key generator, two requests produce
the same scope key iff they agree on resolved client identity, HTTP
method and path, *provided* the identity value (API key or address
fallback) and the method of each request contain no colon.  Without the
proviso only the forward direction survives: the components are joined
with `:`, which may itself occur in an API key, an IPv6 address or the
path, so distinct triples can collide. -/
theorem scope_key_isolation (r₁ r₂ : Req)
    (h₁v : ':' ∉ (clientValue r₁).data) (h₂v : ':' ∉ (clientValue r₂).data)
    (h₁m : ':' ∉ r₁.method.data) (h₂m : ':' ∉ r₂.method.data) :
    scopeKeyOf r₁ = scopeKeyOf r₂ ↔
      defaultKeyGenerator r₁ = defaultKeyGenerator r₂
      ∧ r₁.method = r₂.method ∧ r₁.path = r₂.path := by
  constructor
  · intro h
    rw [scopeKeyOf, scopeKeyOf, scopeKey, scopeKey, dkg_decomp r₁, dkg_decomp r₂] at h
    have hd := congrArg String.data h
    have hcolon : (":" : String).data = [':'] := rfl
    have hrl : ("rl:" : String).data = ['r', 'l', ':'] := rfl
    simp only [String.data_append, List.append_assoc, hcolon, hrl,
      List.singleton_append, List.cons_append, List.nil_append,
      List.cons.injEq, true_and] at hd
    obtain ⟨htag, hrest⟩ :=
      append_colon_inj (clientTag_colonFree r₁) (clientTag_colonFree r₂) hd
    obtain ⟨hval, hrest2⟩ := append_colon_inj h₁v h₂v hrest
    obtain ⟨hm, hp⟩ := append_colon_inj h₁m h₂m hrest2
    refine ⟨?_, String.ext hm, String.ext hp⟩
    rw [dkg_decomp r₁, dkg_decomp r₂, String.ext htag, String.ext hval]
  · rintro ⟨hk, hm, hp⟩
    rw [scopeKeyOf, scopeKeyOf, scopeKey, scopeKey, hk, hm, hp]

/-- Witness for C5 (amended) at concrete colon-free requests: two clients
with API keys `abc` and `abd` on the same route get distinct scope
keys. -/
theorem scope_key_isolation_witness :
    scopeKeyOf ⟨some "abc", none, none, "GET", "/a"⟩
      ≠ scopeKeyOf ⟨some "abd", none, none, "GET", "/a"⟩ :=
  fun h =>
    absurd
      ((scope_key_isolation ⟨some "abc", none, none, "GET", "/a"⟩
          ⟨some "abd", none, none, "GET", "/a"⟩
          (by decide) (by decide) (by decide) (by decide)).mp h).1
      (by decide)

/-- Counterexample to C5 as stated: an API key containing colons makes
two requests that disagree on identity, method *and* path produce the
identical scope key `rl:key:k1:GET:/a:M:/p`. -/
theorem scope_key_counterexample :
    scopeKeyOf ⟨some "k1:GET:/a", none, none, "M", "/p"⟩
      = scopeKeyOf ⟨some "k1", none, none, "GET", "/a:M:/p"⟩
    ∧ (⟨some "k1:GET:/a", none, none, "M", "/p"⟩ : Req).method
        ≠ (⟨some "k1", none, none, "GET", "/a:M:/p"⟩ : Req).method
    ∧ defaultKeyGenerator ⟨some "k1:GET:/a", none, none, "M", "/p"⟩
        ≠ defaultKeyGenerator ⟨some "k1", none, none, "GET", "/a:M:/p"⟩ := by
  refine ⟨by decide, by decide, by decide⟩

end Credence
